import Mathlib

/-!
Verification of the segment churn-rate aggregator of src/main.py.

The aggregation loop (src/main.py lines 158-166) iterates over a list of
service column names; for each service it counts, in the gender/churn-filtered
frame `df_filtered`, the rows whose value in that column is "Yes"
(`churn_count`), counts in the full frame `df` the rows whose value in that
column is "Yes" (`total_users`), and stores the percentage
`churn_count / total_users * 100` (or 0 when `total_users` is 0) into a Python
dict keyed by the service name.  The dict is turned into a one-column frame
`service_churn_df`, which line 172 sorts by descending churn percentage and
truncates with `head`.

Modelling choices, all taken from the source's (pandas) semantics:
- a data frame is a column schema together with a list of rows; a row is a
  total map from column names to string cell values (only schema columns are
  meaningful);
- the sidebar filtering that produces `df_filtered` is abstracted as a
  caller-supplied row predicate `pred` (the spec's `churnPredicate`), so
  `df_filtered = df.rows.filter pred`;
- column access `df[c]` raises `KeyError` when `c` is not in the schema, so
  the per-feature computation returns `Except String _` and the loop
  propagates the first error;
- churn percentages are modelled as rationals: Python float division of the
  small integer counts arising here is exact in all the stated scenarios, and
  the arithmetic structure (guard-the-denominator, bounds) is unchanged;
- `sort_values(by=..., ascending=False)` computes an ascending argsort of the
  key column and reverses the resulting indexer (pandas `nargsort`); numpy's
  default introsort runs as insertion sort, which is stable, on the small
  arrays sorted here (at most 11 service rows), so the descending sort is
  modelled as a stable ascending sort followed by a reversal;
- `head(n)` is `iloc[:n]`: the first `n` rows when `n ≥ 0`, and all rows
  except the last `|n|` rows when `n < 0`.
-/

/-- A row of the customer table: a total map from column names to string cell
values.  Only the columns listed in the owning frame's schema are meaningful. -/
def Row : Type := String → String

/-- A pandas data frame: a column schema plus a list of rows. -/
structure DataFrame where
  schema : List String
  rows : List Row

/-- The spec's FeatureChurnStat: the three quantities computed by one
iteration of the `service_churn_dict` loop, together with the feature name. -/
structure FeatureChurnStat where
  name : String
  subscriberCount : Nat
  churnedCount : Nat
  churnRate : ℚ
deriving DecidableEq

/-- Count from src/main.py lines 160-161: the number of rows of
`df_filtered` (the rows of `df` passing the caller's predicate) whose value in
the `service` column is "Yes". -/
def churn_count (df : DataFrame) (pred : Row → Bool) (service : String) : Nat :=
  ((df.rows.filter pred).filter (fun r => r service == "Yes")).length

/-- Count from src/main.py line 162: the number of rows of the full frame `df`
whose value in the `service` column is "Yes". -/
def total_users (df : DataFrame) (service : String) : Nat :=
  (df.rows.filter (fun r => r service == "Yes")).length

/-- Percentage from src/main.py line 163:
`(churn_count / total_users * 100) if total_users > 0 else 0`. -/
def churn_percentage (df : DataFrame) (pred : Row → Bool) (service : String) : ℚ :=
  if total_users df service > 0 then
    (churn_count df pred service : ℚ) / (total_users df service : ℚ) * 100
  else 0

/-- One iteration of the `service_churn_dict` loop (src/main.py lines
159-164), packaged as the spec's FeatureChurnStat.  Accessing a column absent
from the schema raises `KeyError` in pandas, modelled as `Except.error`. -/
def computeChurnStat (df : DataFrame) (pred : Row → Bool) (service : String) :
    Except String FeatureChurnStat :=
  if service ∈ df.schema then
    Except.ok
      { name := service
        subscriberCount := total_users df service
        churnedCount := churn_count df pred service
        churnRate := churn_percentage df pred service }
  else
    Except.error "KeyError"

/-- The spec's `computeChurnRates`: the aggregation loop run over the list of
feature names, producing one FeatureChurnStat per name in input order, and
propagating the first `KeyError` raised by a name absent from the schema. -/
def computeChurnRates (df : DataFrame) (pred : Row → Bool) :
    List String → Except String (List FeatureChurnStat)
  | [] => Except.ok []
  | n :: ns =>
    match computeChurnStat df pred n with
    | Except.error e => Except.error e
    | Except.ok s =>
      match computeChurnRates df pred ns with
      | Except.error e => Except.error e
      | Except.ok rest => Except.ok (s :: rest)

/-- Python dict assignment `d[k] = v`: when the key is present its value is
overwritten in place (the key keeps its original position); otherwise the pair
is appended at the end (dicts preserve insertion order). -/
def dictInsert (d : List (String × ℚ)) (k : String) (v : ℚ) : List (String × ℚ) :=
  if d.any (fun p => p.1 == k) then
    d.map (fun p => if p.1 == k then (k, v) else p)
  else d ++ [(k, v)]

/-- The loop of src/main.py lines 158-164 with its dict accumulator made
explicit: each iteration stores the feature's churn percentage under the
feature's name. -/
def serviceChurnDictAux (df : DataFrame) (pred : Row → Bool) :
    List String → List (String × ℚ) → Except String (List (String × ℚ))
  | [], acc => Except.ok acc
  | n :: ns, acc =>
    match computeChurnStat df pred n with
    | Except.error e => Except.error e
    | Except.ok s => serviceChurnDictAux df pred ns (dictInsert acc n s.churnRate)

/-- The finished `service_churn_dict` of src/main.py line 158-164 (equally,
the rows of `service_churn_df` from line 166, which keeps the dict's key
order). -/
def serviceChurnDict (df : DataFrame) (pred : Row → Bool) (names : List String) :
    Except String (List (String × ℚ)) :=
  serviceChurnDictAux df pred names []

/-- Comparison used on the one-column frame `service_churn_df`: ascending
order on the churn rate. -/
def rateLE (a b : FeatureChurnStat) : Prop := a.churnRate ≤ b.churnRate

instance : DecidableRel rateLE :=
  fun a b => inferInstanceAs (Decidable (a.churnRate ≤ b.churnRate))

instance : IsTotal FeatureChurnStat rateLE :=
  ⟨fun a b => le_total a.churnRate b.churnRate⟩

instance : IsTrans FeatureChurnStat rateLE :=
  ⟨fun _ _ _ hab hbc => le_trans hab hbc⟩

/-- Model of `sort_values(by="Churn Percentage", ascending=False)` from
src/main.py line 172: pandas argsorts the key column ascending and reverses
the indexer (`nargsort`); numpy's default introsort runs as plain insertion
sort, which is stable, on the small arrays sorted here, so the ascending
argsort is modelled as a stable insertion sort, followed by `reverse`. -/
def sortDescChurn (stats : List FeatureChurnStat) : List FeatureChurnStat :=
  (List.insertionSort rateLE stats).reverse

/-- Model of pandas `DataFrame.head(n)`, i.e. `iloc[:n]`: the first `n` rows
when `n ≥ 0`, and all rows but the last `|n|` when `n` is negative. -/
def pandasHead {α : Type} (l : List α) (k : Int) : List α :=
  if 0 ≤ k then l.take k.toNat
  else l.take (l.length - (-k).toNat)

/-- The spec's `topK` as implemented by src/main.py line 172
(`sort_values(..., ascending=False).head(k)`, with `k = 10` in the source). -/
def topK (stats : List FeatureChurnStat) (k : Int) : List FeatureChurnStat :=
  pandasHead (sortDescChurn stats) k

/-! ### Basic facts about the per-feature counts -/

theorem churn_count_le_total_users (df : DataFrame) (pred : Row → Bool) (service : String) :
    churn_count df pred service ≤ total_users df service := by
  unfold churn_count total_users
  exact ((List.filter_sublist df.rows).filter (fun r => r service == "Yes")).length_le

theorem churn_count_eq_filter_subscribers (df : DataFrame) (pred : Row → Bool) (service : String) :
    churn_count df pred service =
      ((df.rows.filter (fun r => r service == "Yes")).filter pred).length := by
  unfold churn_count
  rw [List.filter_filter, List.filter_filter]
  have hfun : (fun (a : Row) => pred a && (a service == "Yes")) =
      (fun (a : Row) => (a service == "Yes") && pred a) := by
    funext r
    exact Bool.and_comm _ _
  rw [hfun]

theorem churn_percentage_nonneg (df : DataFrame) (pred : Row → Bool) (service : String) :
    0 ≤ churn_percentage df pred service := by
  unfold churn_percentage
  split
  · positivity
  · exact le_refl 0

theorem churn_percentage_le_100 (df : DataFrame) (pred : Row → Bool) (service : String) :
    churn_percentage df pred service ≤ 100 := by
  unfold churn_percentage
  split
  · rename_i h
    have ht : (0 : ℚ) < (total_users df service : ℚ) := by exact_mod_cast h
    have hc : (churn_count df pred service : ℚ) ≤ (total_users df service : ℚ) := by
      exact_mod_cast churn_count_le_total_users df pred service
    have h1 : (churn_count df pred service : ℚ) / (total_users df service : ℚ) ≤ 1 :=
      (div_le_one ht).mpr hc
    have h2 := mul_le_mul_of_nonneg_right h1 (by norm_num : (0:ℚ) ≤ 100)
    simpa using h2
  · norm_num

/-! ### Claims about the per-feature statistic -/

/-- C1: for every collection of customer records and feature name (present on
the records), the aggregation reports subscriber count = number of records
whose value for the feature is "Yes", churned count = number of those
subscriber records on which the churn predicate holds, and, whenever the
subscriber count is positive, churn rate = 100 × churned count / subscriber
count. -/
theorem churn_stat_counts_and_rate_correct (df : DataFrame) (pred : Row → Bool)
    (service : String) (h : service ∈ df.schema) :
    ∃ s, computeChurnStat df pred service = Except.ok s ∧
      s.subscriberCount = (df.rows.filter (fun r => r service == "Yes")).length ∧
      s.churnedCount = ((df.rows.filter (fun r => r service == "Yes")).filter pred).length ∧
      (0 < s.subscriberCount →
        s.churnRate = 100 * (s.churnedCount : ℚ) / (s.subscriberCount : ℚ)) := by
  refine ⟨{ name := service, subscriberCount := total_users df service,
            churnedCount := churn_count df pred service,
            churnRate := churn_percentage df pred service }, ?_, rfl,
          churn_count_eq_filter_subscribers df pred service, ?_⟩
  · unfold computeChurnStat
    rw [if_pos h]
  · intro hpos
    show churn_percentage df pred service = _
    unfold churn_percentage
    rw [if_pos hpos]
    ring

/-- A concrete customer record with the given Internet Service and Churn
Label cells. -/
def mkScenarioRow (internet churn : String) : Row :=
  fun c => if c = "Internet Service" then internet
           else if c = "Churn Label" then churn else ""

/-- Scenario of the spec: 10 records, 4 with Internet Service = "Yes" of which
3 are churned, 6 with "No". -/
def scenarioDF : DataFrame :=
  { schema := ["Internet Service", "Churn Label"]
    rows := [mkScenarioRow "Yes" "Yes", mkScenarioRow "Yes" "Yes", mkScenarioRow "Yes" "Yes",
             mkScenarioRow "Yes" "No", mkScenarioRow "No" "Yes", mkScenarioRow "No" "No",
             mkScenarioRow "No" "No", mkScenarioRow "No" "No", mkScenarioRow "No" "No",
             mkScenarioRow "No" "No"] }

/-- The churn predicate of the source: the row's Churn Label is "Yes". -/
def churnLabelYes : Row → Bool := fun r => r "Churn Label" == "Yes"

/-- Witness for C1 at the spec's scenario: subscriber count 4, churned count
3, churn rate 75. -/
theorem churn_stat_counts_and_rate_correct_witness :
    ("Internet Service" ∈ scenarioDF.schema) ∧
    ∃ s, computeChurnStat scenarioDF churnLabelYes "Internet Service" = Except.ok s ∧
      s.subscriberCount = 4 ∧ s.churnedCount = 3 ∧ s.churnRate = 75 := by
  have hmem : "Internet Service" ∈ scenarioDF.schema := by decide
  obtain ⟨s, hs, h1, h2, h3⟩ :=
    churn_stat_counts_and_rate_correct scenarioDF churnLabelYes "Internet Service" hmem
  have hsub : s.subscriberCount = 4 := by rw [h1]; rfl
  have hch : s.churnedCount = 3 := by rw [h2]; rfl
  have hpos : 0 < s.subscriberCount := by rw [hsub]; norm_num
  have hrate : s.churnRate = 75 := by rw [h3 hpos, hsub, hch]; norm_num
  exact ⟨hmem, s, hs, hsub, hch, hrate⟩

/-- C2: a feature (present on the records) with zero subscribers gets churn
rate exactly 0, with no division error and no undefined value: the result is a
well-defined all-zero statistic. -/
theorem zero_subscribers_gives_zero_rate (df : DataFrame) (pred : Row → Bool)
    (service : String) (h : service ∈ df.schema) (h0 : total_users df service = 0) :
    computeChurnStat df pred service =
      Except.ok { name := service, subscriberCount := 0, churnedCount := 0, churnRate := 0 } := by
  have hc : churn_count df pred service = 0 :=
    Nat.le_zero.mp (h0 ▸ churn_count_le_total_users df pred service)
  have hr : churn_percentage df pred service = 0 := by
    unfold churn_percentage
    rw [if_neg]
    simp [h0]
  unfold computeChurnStat
  rw [if_pos h, h0, hc, hr]

/-- One record, subscribed to nothing. -/
def noSubsDF : DataFrame := { schema := ["S"], rows := [fun _ => "No"] }

/-- Witness for C2: a table whose one record does not subscribe to "S". -/
theorem zero_subscribers_gives_zero_rate_witness :
    ("S" ∈ noSubsDF.schema) ∧ total_users noSubsDF "S" = 0 ∧
    computeChurnStat noSubsDF churnLabelYes "S" =
      Except.ok { name := "S", subscriberCount := 0, churnedCount := 0, churnRate := 0 } :=
  ⟨by decide, rfl, zero_subscribers_gives_zero_rate noSubsDF churnLabelYes "S" (by decide) rfl⟩

/-- C4: churned count never exceeds subscriber count, and every computed churn
rate lies in the interval [0, 100]. -/
theorem churned_le_subscribers_and_rate_in_range (df : DataFrame) (pred : Row → Bool)
    (service : String) (h : service ∈ df.schema) :
    churn_count df pred service ≤ total_users df service ∧
    ∃ s, computeChurnStat df pred service = Except.ok s ∧
      s.churnedCount ≤ s.subscriberCount ∧ 0 ≤ s.churnRate ∧ s.churnRate ≤ 100 := by
  refine ⟨churn_count_le_total_users df pred service,
          { name := service, subscriberCount := total_users df service,
            churnedCount := churn_count df pred service,
            churnRate := churn_percentage df pred service }, ?_,
          churn_count_le_total_users df pred service,
          churn_percentage_nonneg df pred service,
          churn_percentage_le_100 df pred service⟩
  unfold computeChurnStat
  rw [if_pos h]

/-- One record, subscribed to "S". -/
def tinyDF : DataFrame := { schema := ["S"], rows := [fun _ => "Yes"] }

/-- Witness for C4 at a one-row table. -/
theorem churned_le_subscribers_and_rate_in_range_witness :
    ("S" ∈ tinyDF.schema) ∧
    (churn_count tinyDF (fun _ => true) "S" ≤ total_users tinyDF "S" ∧
     ∃ s, computeChurnStat tinyDF (fun _ => true) "S" = Except.ok s ∧
       s.churnedCount ≤ s.subscriberCount ∧ 0 ≤ s.churnRate ∧ s.churnRate ≤ 100) :=
  ⟨by decide, churned_le_subscribers_and_rate_in_range tinyDF (fun _ => true) "S" (by decide)⟩

/-! ### The aggregation loop over a list of feature names -/

/-- The statistic the loop body produces for one feature. -/
def statOf (df : DataFrame) (pred : Row → Bool) (n : String) : FeatureChurnStat :=
  { name := n
    subscriberCount := total_users df n
    churnedCount := churn_count df pred n
    churnRate := churn_percentage df pred n }

theorem computeChurnStat_of_mem {df : DataFrame} {pred : Row → Bool} {service : String}
    (h : service ∈ df.schema) :
    computeChurnStat df pred service = Except.ok (statOf df pred service) := by
  unfold computeChurnStat statOf
  rw [if_pos h]

theorem computeChurnStat_of_not_mem {df : DataFrame} {pred : Row → Bool} {service : String}
    (h : service ∉ df.schema) :
    computeChurnStat df pred service = Except.error "KeyError" := by
  unfold computeChurnStat
  rw [if_neg h]

theorem computeChurnRates_eq_map (df : DataFrame) (pred : Row → Bool)
    (names : List String) (h : ∀ n ∈ names, n ∈ df.schema) :
    computeChurnRates df pred names = Except.ok (names.map (statOf df pred)) := by
  induction names with
  | nil => rfl
  | cons n ns ih =>
    have hn : n ∈ df.schema := h n (List.mem_cons_self n ns)
    have hns := ih (fun m hm => h m (List.mem_cons_of_mem n hm))
    simp only [computeChurnRates, computeChurnStat_of_mem hn, hns, List.map_cons]

theorem computeChurnRates_error_of_missing (df : DataFrame) (pred : Row → Bool)
    (names : List String) (h : ∃ n ∈ names, n ∉ df.schema) :
    computeChurnRates df pred names = Except.error "KeyError" := by
  induction names with
  | nil =>
    obtain ⟨n, hn, _⟩ := h
    cases hn
  | cons n ns ih =>
    obtain ⟨m, hm, hmiss⟩ := h
    by_cases hn : n ∈ df.schema
    · have hbad : ∃ m ∈ ns, m ∉ df.schema := by
        rcases List.mem_cons.mp hm with rfl | hm'
        · exact absurd hn hmiss
        · exact ⟨m, hm', hmiss⟩
      simp only [computeChurnRates, computeChurnStat_of_mem hn, ih hbad]
    · simp only [computeChurnRates, computeChurnStat_of_not_mem hn]

theorem serviceChurnDictAux_error_of_missing (df : DataFrame) (pred : Row → Bool)
    (names : List String) (acc : List (String × ℚ)) (h : ∃ n ∈ names, n ∉ df.schema) :
    serviceChurnDictAux df pred names acc = Except.error "KeyError" := by
  induction names generalizing acc with
  | nil =>
    obtain ⟨n, hn, _⟩ := h
    cases hn
  | cons n ns ih =>
    obtain ⟨m, hm, hmiss⟩ := h
    by_cases hn : n ∈ df.schema
    · have hbad : ∃ m ∈ ns, m ∉ df.schema := by
        rcases List.mem_cons.mp hm with rfl | hm'
        · exact absurd hn hmiss
        · exact ⟨m, hm', hmiss⟩
      simp only [serviceChurnDictAux, computeChurnStat_of_mem hn, ih _ hbad]
    · simp only [serviceChurnDictAux, computeChurnStat_of_not_mem hn]

/-! ### Facts about the Python dict accumulator -/

theorem dictInsert_keys (d : List (String × ℚ)) (k : String) (v : ℚ) :
    (dictInsert d k v).map Prod.fst =
      if k ∈ d.map Prod.fst then d.map Prod.fst else d.map Prod.fst ++ [k] := by
  unfold dictInsert
  by_cases hk : k ∈ d.map Prod.fst
  · have hany : d.any (fun p => p.1 == k) = true := by
      obtain ⟨p, hp, hpk⟩ := List.mem_map.mp hk
      exact List.any_eq_true.mpr ⟨p, hp, beq_iff_eq.mpr hpk⟩
    rw [if_pos hany, if_pos hk, List.map_map]
    apply List.map_congr_left
    intro p hp
    by_cases hpk : p.1 = k
    · simp [Function.comp, hpk]
    · simp [Function.comp, hpk]
  · have hany : ¬ d.any (fun p => p.1 == k) = true := by
      intro hc
      obtain ⟨p, hp, hpk⟩ := List.any_eq_true.mp hc
      exact hk (List.mem_map.mpr ⟨p, hp, beq_iff_eq.mp hpk⟩)
    rw [if_neg hany, if_neg hk, List.map_append]
    rfl

theorem dictInsert_keys_mem (d : List (String × ℚ)) (k : String) (v : ℚ) (x : String) :
    x ∈ (dictInsert d k v).map Prod.fst ↔ x ∈ d.map Prod.fst ∨ x = k := by
  rw [dictInsert_keys]
  by_cases hk : k ∈ d.map Prod.fst
  · rw [if_pos hk]
    constructor
    · exact Or.inl
    · rintro (h | rfl)
      · exact h
      · exact hk
  · rw [if_neg hk]
    simp

theorem dictInsert_keys_nodup (d : List (String × ℚ)) (k : String) (v : ℚ)
    (h : (d.map Prod.fst).Nodup) : ((dictInsert d k v).map Prod.fst).Nodup := by
  rw [dictInsert_keys]
  by_cases hk : k ∈ d.map Prod.fst
  · rw [if_pos hk]
    exact h
  · rw [if_neg hk]
    simp [List.nodup_append, h, hk]

theorem dictInsert_forall {Q : String × ℚ → Prop} (d : List (String × ℚ)) (k : String) (v : ℚ)
    (hd : ∀ p ∈ d, Q p) (hkv : Q (k, v)) : ∀ p ∈ dictInsert d k v, Q p := by
  intro p hp
  unfold dictInsert at hp
  by_cases hany : d.any (fun p => p.1 == k) = true
  · rw [if_pos hany] at hp
    obtain ⟨q, hq, hqp⟩ := List.mem_map.mp hp
    by_cases hqk : q.1 = k
    · rw [if_pos (beq_iff_eq.mpr hqk)] at hqp
      rw [← hqp]
      exact hkv
    · rw [if_neg (by simpa using hqk)] at hqp
      rw [← hqp]
      exact hd q hq
  · rw [if_neg hany] at hp
    rcases List.mem_append.mp hp with h | h
    · exact hd p h
    · rw [List.mem_singleton.mp h]
      exact hkv

theorem dictInsert_of_key_not_mem (d : List (String × ℚ)) (k : String) (v : ℚ)
    (h : k ∉ d.map Prod.fst) : dictInsert d k v = d ++ [(k, v)] := by
  unfold dictInsert
  rw [if_neg]
  intro hc
  obtain ⟨p, hp, hpk⟩ := List.any_eq_true.mp hc
  exact h (List.mem_map.mpr ⟨p, hp, beq_iff_eq.mp hpk⟩)

theorem serviceChurnDictAux_of_nodup (df : DataFrame) (pred : Row → Bool) :
    ∀ (names : List String) (acc : List (String × ℚ)),
      (∀ n ∈ names, n ∈ df.schema) → names.Nodup →
      (∀ n ∈ names, n ∉ acc.map Prod.fst) →
      serviceChurnDictAux df pred names acc =
        Except.ok (acc ++ names.map (fun n => (n, churn_percentage df pred n))) := by
  intro names
  induction names with
  | nil =>
    intro acc _ _ _
    simp [serviceChurnDictAux]
  | cons n ns ih =>
    intro acc h hnd hdisj
    have hn : n ∈ df.schema := h n (List.mem_cons_self n ns)
    have hstep :
        serviceChurnDictAux df pred (n :: ns) acc =
          serviceChurnDictAux df pred ns (dictInsert acc n (churn_percentage df pred n)) := by
      simp only [serviceChurnDictAux, computeChurnStat_of_mem hn]
      rfl
    have hdisj' : ∀ m ∈ ns, m ∉ (acc ++ [(n, churn_percentage df pred n)]).map Prod.fst := by
      intro m hm
      rw [List.map_append]
      intro hc
      rcases List.mem_append.mp hc with h1 | h1
      · exact hdisj m (List.mem_cons_of_mem n hm) h1
      · have hmn : m = n := by simpa using h1
        exact (List.nodup_cons.mp hnd).1 (hmn ▸ hm)
    rw [hstep, dictInsert_of_key_not_mem acc n _ (hdisj n (List.mem_cons_self n ns)),
      ih (acc ++ [(n, churn_percentage df pred n)]) (fun m hm => h m (List.mem_cons_of_mem n hm))
        (List.nodup_cons.mp hnd).2 hdisj']
    simp

theorem serviceChurnDictAux_spec (df : DataFrame) (pred : Row → Bool) :
    ∀ (names : List String) (acc : List (String × ℚ)),
      (∀ n ∈ names, n ∈ df.schema) →
      ∃ d, serviceChurnDictAux df pred names acc = Except.ok d ∧
        ((acc.map Prod.fst).Nodup → (d.map Prod.fst).Nodup) ∧
        (∀ x, x ∈ d.map Prod.fst ↔ x ∈ acc.map Prod.fst ∨ x ∈ names) ∧
        ((∀ p ∈ acc, p.2 = churn_percentage df pred p.1) →
          ∀ p ∈ d, p.2 = churn_percentage df pred p.1) := by
  intro names
  induction names with
  | nil =>
    intro acc _
    refine ⟨acc, rfl, fun hnd => hnd, fun x => ?_, fun hv => hv⟩
    simp
  | cons n ns ih =>
    intro acc h
    have hn : n ∈ df.schema := h n (List.mem_cons_self n ns)
    have hstep :
        serviceChurnDictAux df pred (n :: ns) acc =
          serviceChurnDictAux df pred ns (dictInsert acc n (churn_percentage df pred n)) := by
      simp only [serviceChurnDictAux, computeChurnStat_of_mem hn]
      rfl
    obtain ⟨d, hd, hnd, hmem, hval⟩ :=
      ih (dictInsert acc n (churn_percentage df pred n))
        (fun m hm => h m (List.mem_cons_of_mem n hm))
    refine ⟨d, hstep ▸ hd, ?_, ?_, ?_⟩
    · intro hacc
      exact hnd (dictInsert_keys_nodup acc n _ hacc)
    · intro x
      rw [hmem x, dictInsert_keys_mem]
      constructor
      · rintro ((h1 | rfl) | h1)
        · exact Or.inl h1
        · exact Or.inr (List.mem_cons_self x ns)
        · exact Or.inr (List.mem_cons_of_mem n h1)
      · rintro (h1 | h1)
        · exact Or.inl (Or.inl h1)
        · rcases List.mem_cons.mp h1 with rfl | h2
          · exact Or.inl (Or.inr rfl)
          · exact Or.inr h2
    · intro hacc
      exact hval (dictInsert_forall acc n _ hacc rfl)

/-! ### Empty tables -/

theorem total_users_of_no_rows {df : DataFrame} (h0 : df.rows = []) (service : String) :
    total_users df service = 0 := by
  unfold total_users
  rw [h0]
  rfl

theorem churn_count_of_no_rows {df : DataFrame} (h0 : df.rows = []) (pred : Row → Bool)
    (service : String) : churn_count df pred service = 0 := by
  unfold churn_count
  rw [h0]
  rfl

theorem churn_percentage_of_no_rows {df : DataFrame} (h0 : df.rows = []) (pred : Row → Bool)
    (service : String) : churn_percentage df pred service = 0 := by
  unfold churn_percentage
  rw [if_neg]
  simp [total_users_of_no_rows h0]

theorem statOf_of_no_rows {df : DataFrame} (h0 : df.rows = []) (pred : Row → Bool)
    (service : String) :
    statOf df pred service =
      { name := service, subscriberCount := 0, churnedCount := 0, churnRate := 0 } := by
  unfold statOf
  rw [total_users_of_no_rows h0, churn_count_of_no_rows h0, churn_percentage_of_no_rows h0]

/-! ### Claims about the loop over feature names -/

/-- C3 as corrected: a feature name that does not correspond to a column of
the records makes the aggregation raise a `KeyError` (pandas column lookup),
rather than contributing a zero-subscriber statistic. -/
theorem missing_feature_raises_key_error (df : DataFrame) (pred : Row → Bool)
    (names : List String) (n : String) (hn : n ∈ names) (hmiss : n ∉ df.schema) :
    computeChurnRates df pred names = Except.error "KeyError" ∧
    serviceChurnDict df pred names = Except.error "KeyError" :=
  ⟨computeChurnRates_error_of_missing df pred names ⟨n, hn, hmiss⟩,
   serviceChurnDictAux_error_of_missing df pred names [] ⟨n, hn, hmiss⟩⟩

/-- A one-record table whose only column is "X". -/
def dfX : DataFrame := { schema := ["X"], rows := [fun _ => "Yes"] }

/-- Counterexample to C3 as stated: probing the unknown feature name "Y" on a
table with only column "X" yields an error, not a zero-subscriber
FeatureChurnStat. -/
theorem missing_feature_counterexample :
    computeChurnStat dfX churnLabelYes "Y" = Except.error "KeyError" ∧
    computeChurnStat dfX churnLabelYes "Y" ≠
      Except.ok { name := "Y", subscriberCount := 0, churnedCount := 0, churnRate := 0 } := by
  refine ⟨rfl, ?_⟩
  intro h
  have h' : (Except.error "KeyError" : Except String FeatureChurnStat) =
      Except.ok { name := "Y", subscriberCount := 0, churnedCount := 0, churnRate := 0 } := h
  exact Except.noConfusion h'

/-- Witness for the corrected C3 at the concrete input of the counterexample. -/
theorem missing_feature_raises_key_error_witness :
    ("Y" ∈ (["Y"] : List String)) ∧ ("Y" ∉ dfX.schema) ∧
    computeChurnRates dfX churnLabelYes ["Y"] = Except.error "KeyError" ∧
    serviceChurnDict dfX churnLabelYes ["Y"] = Except.error "KeyError" := by
  have h := missing_feature_raises_key_error dfX churnLabelYes ["Y"] "Y"
    (List.mem_singleton.mpr rfl) (by decide)
  exact ⟨List.mem_singleton.mpr rfl, by decide, h.1, h.2⟩

/-- C5 as corrected: over an empty record collection the aggregation raises no
exception and returns one all-zero statistic per feature name, provided every
requested name is a column of the (empty) table; a name absent from the schema
still raises `KeyError` even when there are no records. -/
theorem empty_records_all_zero_stats (df : DataFrame) (pred : Row → Bool)
    (names : List String) (h0 : df.rows = []) (h : ∀ n ∈ names, n ∈ df.schema) :
    computeChurnRates df pred names =
      Except.ok (names.map fun n =>
        { name := n, subscriberCount := 0, churnedCount := 0, churnRate := 0 }) := by
  rw [computeChurnRates_eq_map df pred names h]
  congr 1
  exact List.map_congr_left (fun n _ => statOf_of_no_rows h0 pred n)

/-- An empty table with columns "A" and "B". -/
def dfABEmpty : DataFrame := { schema := ["A", "B"], rows := [] }

/-- Witness for the corrected C5 at the spec's scenario: empty records and
feature list ["A", "B"] give two all-zero statistics. -/
theorem empty_records_all_zero_stats_witness :
    dfABEmpty.rows = [] ∧ (∀ n ∈ (["A", "B"] : List String), n ∈ dfABEmpty.schema) ∧
    computeChurnRates dfABEmpty churnLabelYes ["A", "B"] =
      Except.ok [{ name := "A", subscriberCount := 0, churnedCount := 0, churnRate := 0 },
                 { name := "B", subscriberCount := 0, churnedCount := 0, churnRate := 0 }] :=
  ⟨rfl, by decide,
   empty_records_all_zero_stats dfABEmpty churnLabelYes ["A", "B"] rfl (by decide)⟩

/-- Counterexample to C5 as stated: over the empty record collection (a table
with no columns at all) the feature list ["A"] does not produce an all-zero
statistic but a `KeyError`. -/
theorem empty_records_counterexample :
    computeChurnRates { schema := [], rows := [] } churnLabelYes ["A"] =
      Except.error "KeyError" ∧
    computeChurnRates { schema := [], rows := [] } churnLabelYes ["A"] ≠
      Except.ok [{ name := "A", subscriberCount := 0, churnedCount := 0, churnRate := 0 }] := by
  refine ⟨rfl, ?_⟩
  intro h
  have h' : (Except.error "KeyError" : Except String (List FeatureChurnStat)) =
      Except.ok [{ name := "A", subscriberCount := 0, churnedCount := 0, churnRate := 0 }] := h
  exact Except.noConfusion h'

/-- C6: on a list of distinct feature names (all present on the records) the
aggregation returns exactly one FeatureChurnStat per input name, in the same
order as the input list, and the dict-backed `service_churn_df` keeps exactly
that key order. -/
theorem one_stat_per_feature_in_input_order (df : DataFrame) (pred : Row → Bool)
    (names : List String) (hnd : names.Nodup) (h : ∀ n ∈ names, n ∈ df.schema) :
    computeChurnRates df pred names = Except.ok (names.map (statOf df pred)) ∧
    (names.map (statOf df pred)).map FeatureChurnStat.name = names ∧
    (names.map (statOf df pred)).length = names.length ∧
    serviceChurnDict df pred names =
      Except.ok (names.map fun n => (n, churn_percentage df pred n)) := by
  refine ⟨computeChurnRates_eq_map df pred names h, ?_, by simp, ?_⟩
  · have hcomp : (FeatureChurnStat.name ∘ statOf df pred) = id := by
      funext n
      rfl
    rw [List.map_map, hcomp, List.map_id]
  · unfold serviceChurnDict
    rw [serviceChurnDictAux_of_nodup df pred names [] h hnd (by simp)]
    simp

/-- Witness for C6: the two distinct names "A", "B" over the empty two-column
table come back in input order. -/
theorem one_stat_per_feature_in_input_order_witness :
    (["A", "B"] : List String).Nodup ∧
    ((["A", "B"] : List String).map (statOf dfABEmpty churnLabelYes)).map
      FeatureChurnStat.name = ["A", "B"] :=
  ⟨by decide,
   (one_stat_per_feature_in_input_order dfABEmpty churnLabelYes ["A", "B"]
     (by decide) (by decide)).2.1⟩

/-- C7: the aggregation is deterministic: two invocations on identical inputs
(same records, same feature names, same churn predicate) produce identical
outputs. -/
theorem aggregation_deterministic (df1 df2 : DataFrame) (pred1 pred2 : Row → Bool)
    (names1 names2 : List String) (hdf : df1 = df2) (hp : pred1 = pred2)
    (hn : names1 = names2) :
    computeChurnRates df1 pred1 names1 = computeChurnRates df2 pred2 names2 ∧
    serviceChurnDict df1 pred1 names1 = serviceChurnDict df2 pred2 names2 := by
  subst hdf
  subst hp
  subst hn
  exact ⟨rfl, rfl⟩

/-- Witness for C7 at a concrete repeated invocation. -/
theorem aggregation_deterministic_witness :
    computeChurnRates tinyDF churnLabelYes ["S"] = computeChurnRates tinyDF churnLabelYes ["S"] ∧
    serviceChurnDict tinyDF churnLabelYes ["S"] = serviceChurnDict tinyDF churnLabelYes ["S"] :=
  aggregation_deterministic tinyDF tinyDF churnLabelYes churnLabelYes ["S"] ["S"] rfl rfl rfl

/-- C10: with duplicate feature names the dict-backed aggregation keeps one
entry per distinct name (later recomputations overwrite in place with the same
value): the keys are exactly the distinct input names, without duplicates, the
output length is the number of distinct names, and every stored value is the
recomputed churn percentage of its key. -/
theorem duplicate_names_collapse_in_dict (df : DataFrame) (pred : Row → Bool)
    (names : List String) (h : ∀ n ∈ names, n ∈ df.schema) :
    ∃ d, serviceChurnDict df pred names = Except.ok d ∧
      (d.map Prod.fst).Nodup ∧
      (∀ x, x ∈ d.map Prod.fst ↔ x ∈ names) ∧
      d.length = names.dedup.length ∧
      (∀ p ∈ d, p.2 = churn_percentage df pred p.1) := by
  obtain ⟨d, hd, hnd, hmem, hval⟩ := serviceChurnDictAux_spec df pred names [] h
  have hnd' : (d.map Prod.fst).Nodup := hnd (by simp)
  have hmem' : ∀ x, x ∈ d.map Prod.fst ↔ x ∈ names := by
    intro x
    rw [hmem x]
    simp
  have hlen : d.length = names.dedup.length := by
    have hperm : List.Perm (d.map Prod.fst) names.dedup := by
      rw [List.perm_ext_iff_of_nodup hnd' names.nodup_dedup]
      intro x
      rw [hmem' x, List.mem_dedup]
    calc d.length = (d.map Prod.fst).length := by simp
    _ = names.dedup.length := hperm.length_eq
  exact ⟨d, hd, hnd', hmem', hlen, hval (by simp)⟩

/-- Witness for C10: the duplicated list ["A", "A", "B"] yields a dict with
the two keys "A" and "B". -/
theorem duplicate_names_collapse_in_dict_witness :
    (∀ n ∈ (["A", "A", "B"] : List String), n ∈ dfABEmpty.schema) ∧
    ∃ d, serviceChurnDict dfABEmpty churnLabelYes ["A", "A", "B"] = Except.ok d ∧
      (d.map Prod.fst).Nodup ∧
      (∀ x, x ∈ d.map Prod.fst ↔ x ∈ (["A", "A", "B"] : List String)) ∧
      d.length = (["A", "A", "B"] : List String).dedup.length ∧
      (∀ p ∈ d, p.2 = churn_percentage dfABEmpty churnLabelYes p.1) :=
  ⟨by decide, duplicate_names_collapse_in_dict dfABEmpty churnLabelYes ["A", "A", "B"] (by decide)⟩

/-! ### The descending sort and head of src/main.py line 172 -/

theorem sortDescChurn_perm (stats : List FeatureChurnStat) :
    List.Perm (sortDescChurn stats) stats := by
  unfold sortDescChurn
  exact (List.reverse_perm _).trans (List.perm_insertionSort rateLE stats)

theorem sortDescChurn_length (stats : List FeatureChurnStat) :
    (sortDescChurn stats).length = stats.length :=
  (sortDescChurn_perm stats).length_eq

theorem sortDescChurn_sorted (stats : List FeatureChurnStat) :
    (sortDescChurn stats).Pairwise (fun a b => b.churnRate ≤ a.churnRate) := by
  unfold sortDescChurn
  rw [List.pairwise_reverse]
  exact List.sorted_insertionSort rateLE stats

theorem pandasHead_sublist {α : Type} (l : List α) (k : Int) :
    List.Sublist (pandasHead l k) l := by
  unfold pandasHead
  split
  · exact List.take_sublist _ _
  · exact List.take_sublist _ _

/-- C8 as amended: `topK` returns a prefix of the descending-sorted statistics
with no error for any integer k: the result is sorted by descending churn
rate; for `0 ≤ k` its length is `min k (number of stats)`; for `k ≥` the
number of stats it is a permutation of the input (nothing dropped or
duplicated); for `k = 0` it is empty; and for negative `k` it keeps all but
the last `|k|` sorted entries (pandas `head` semantics), so a negative `k`
need not give an empty result. -/
theorem topK_sorted_length_perm (stats : List FeatureChurnStat) (k : Int) :
    (topK stats k).Pairwise (fun a b => b.churnRate ≤ a.churnRate) ∧
    (0 ≤ k → (topK stats k).length = min k.toNat stats.length) ∧
    ((stats.length : Int) ≤ k → List.Perm (topK stats k) stats) ∧
    (k = 0 → topK stats k = []) ∧
    (k < 0 → (topK stats k).length = stats.length - (-k).toNat) := by
  refine ⟨?_, ?_, ?_, ?_, ?_⟩
  · exact List.Pairwise.sublist (pandasHead_sublist _ k) (sortDescChurn_sorted stats)
  · intro hk
    unfold topK pandasHead
    rw [if_pos hk, List.length_take, sortDescChurn_length]
  · intro hk
    have hk0 : 0 ≤ k := le_trans (Int.ofNat_nonneg _) hk
    have hlen : (sortDescChurn stats).length ≤ k.toNat := by
      rw [sortDescChurn_length]
      omega
    unfold topK pandasHead
    rw [if_pos hk0, List.take_of_length_le hlen]
    exact sortDescChurn_perm stats
  · intro hk
    subst hk
    unfold topK pandasHead
    rfl
  · intro hk
    have hk0 : ¬ (0 : Int) ≤ k := by omega
    unfold topK pandasHead
    rw [if_neg hk0, List.length_take, sortDescChurn_length]
    omega

/-- Two statistics with rates 10 and 5. -/
def twoStats : List FeatureChurnStat :=
  [{ name := "A", subscriberCount := 1, churnedCount := 1, churnRate := 10 },
   { name := "B", subscriberCount := 1, churnedCount := 1, churnRate := 5 }]

/-- Counterexample to C8 as stated: `k = -1 ≤ 0` does not yield an empty
result — pandas `head(-1)` keeps all rows but the last one. -/
theorem topK_negative_k_counterexample :
    ((-1 : Int) ≤ 0) ∧ topK twoStats (-1) ≠ [] := by
  refine ⟨by norm_num, ?_⟩
  decide

/-- Witness for the amended C8: at `k = 2` over the two statistics the length
and permutation hypotheses are discharged concretely. -/
theorem topK_sorted_length_perm_witness :
    (0 ≤ (2 : Int)) ∧ ((twoStats.length : Int) ≤ 2) ∧
    (topK twoStats 2).length = min (2 : Int).toNat twoStats.length ∧
    List.Perm (topK twoStats 2) twoStats := by
  have h := topK_sorted_length_perm twoStats 2
  exact ⟨by norm_num, by decide, h.2.1 (by norm_num), h.2.2.1 (by decide)⟩

/-- The spec's tie scenario, stat A: rate 10. -/
def statA : FeatureChurnStat :=
  { name := "A", subscriberCount := 10, churnedCount := 1, churnRate := 10 }

/-- Stat B of the tie scenario, rate 30. -/
def statB : FeatureChurnStat :=
  { name := "B", subscriberCount := 10, churnedCount := 3, churnRate := 30 }

/-- Stat C of the tie scenario, rate 30 (tied with B). -/
def statC : FeatureChurnStat :=
  { name := "C", subscriberCount := 10, churnedCount := 3, churnRate := 30 }

/-- Stat D of the tie scenario, rate 5. -/
def statD : FeatureChurnStat :=
  { name := "D", subscriberCount := 20, churnedCount := 1, churnRate := 5 }

/-- The tie scenario input sequence. -/
def tieStats : List FeatureChurnStat := [statA, statB, statC, statD]

/-- Counterexample to C9 as stated: on the tie scenario with k = 2 the code
does not return [B, C] (ties are not kept in original input order). -/
theorem topK_tie_counterexample : topK tieStats 2 ≠ [statB, statC] := by
  decide

/-- C9 as amended: the sort is anti-stable: pandas argsorts the rates
ascending with a stable sort and then reverses the indexer, so entries with
any given churn rate appear in the output in reversed input order; in
particular on the tie scenario with k = 2 the result is [C, B], not [B, C]. -/
theorem topK_ties_reversed (stats : List FeatureChurnStat) (r : ℚ) :
    (sortDescChurn stats).filter (fun s => s.churnRate == r) =
      ((stats.filter (fun s => s.churnRate == r)).reverse) ∧
    topK tieStats 2 = [statC, statB] := by
  constructor
  · unfold sortDescChurn
    rw [List.filter_reverse]
    congr 1
    have hmemp : ∀ s ∈ stats.filter (fun s => s.churnRate == r),
        (fun s => s.churnRate == r) s = true := by
      intro s hs
      exact (List.mem_filter.mp hs).2
    have hpw : (stats.filter (fun s => s.churnRate == r)).Pairwise rateLE := by
      apply List.pairwise_of_forall_mem_list
      intro a ha b hb
      show a.churnRate ≤ b.churnRate
      rw [beq_iff_eq.mp (hmemp a ha), beq_iff_eq.mp (hmemp b hb)]
    have hsub : List.Sublist (stats.filter (fun s => s.churnRate == r))
        ((List.insertionSort rateLE stats).filter (fun s => s.churnRate == r)) := by
      have h1 : List.Sublist (stats.filter (fun s => s.churnRate == r))
          (List.insertionSort rateLE stats) :=
        List.sublist_insertionSort hpw (List.filter_sublist stats)
      have h2 := h1.filter (fun s => s.churnRate == r)
      rwa [List.filter_eq_self.mpr hmemp] at h2
    have hlen : ((List.insertionSort rateLE stats).filter
        (fun s => s.churnRate == r)).length =
        (stats.filter (fun s => s.churnRate == r)).length :=
      ((List.perm_insertionSort rateLE stats).filter _).length_eq
    exact (hsub.eq_of_length hlen.symm).symm
  · decide
